import Mathlib

/-
Verification of the Oat inter-process streaming substrate and its
application components.

The shallow embedding below translates the C++ sources into Lean:
semaphores become token counters (a `post` adds a token, a successful
`timed_wait` removes one), shared memory becomes an explicit registry of
named segments, and the blocking `wait` loop becomes a fuel-indexed
function that returns `none` when the fuel runs out without the loop
having been released.
-/

/-- Modelled from the spec: `Node.h` is not part of the provided sources.
The producer lifecycle state stored in the in-segment Node control block,
`sink_state ∈ {UNDEFINED, BOUND, END}`. -/

inductive SinkState where
  | UNDEFINED
  | BOUND
  | END
deriving DecidableEq, Repr

/-- The small fixed consumer capacity of a Node (`MAX_CONSUMERS`); the spec
fixes it as a small constant, at most 10. -/
def maxConsumers : Nat := 10

/-- Modelled from the spec: `Node.h` is not part of the provided sources.
The process-shared control block living inside a segment: sink state, the
two consumer counters, the producer's write barrier and the per-slot read
barriers (counting semaphores, represented by their token counts), and the
slot-occupancy flags backing slot assignment. -/
structure Node where
  sink_state : SinkState
  source_ref_count : Nat
  source_read_count : Nat
  write_barrier : Nat
  read_barriers : List Nat
  slots : List Bool
deriving DecidableEq, Repr

/-- A Node as default-constructed by `find_or_construct<oat::Node>`:
no sink, no consumers, no pending barrier tokens. -/
def Node.init : Node :=
  { sink_state := SinkState.UNDEFINED
  , source_ref_count := 0
  , source_read_count := 0
  , write_barrier := 0
  , read_barriers := List.replicate maxConsumers 0
  , slots := List.replicate maxConsumers false }

/-- Modelled from the spec: `Node.h` is not part of the provided sources.
`increment_source_ref_count() → slot_index`: under the mutex, picks the
lowest free slot index, increments the count and returns the index; fails
(`too-many-consumers`) when no slot is free. -/
def Node.incrementSourceRefCount (n : Node) : Option (Nat × Node) :=
  match n.slots.findIdx? (fun b => !b) with
  | none => none
  | some i =>
      some (i, { n with slots := n.slots.set i true
                      , source_ref_count := n.source_ref_count + 1 })

/-- Modelled from the spec: `Node.h` is not part of the provided sources.
`decrement_source_ref_count() → new_count`: releases the calling source's
slot and returns the post-decrement count. -/
def Node.decrementSourceRefCount (n : Node) (i : Nat) : Nat × Node :=
  (n.source_ref_count - 1,
   { n with source_ref_count := n.source_ref_count - 1
          , slots := n.slots.set i false })

/-- Modelled from the spec: `Node.h` is not part of the provided sources.
`increment_source_read_count() → new_count`: called by a consumer after it
has observed the current sample; returns the post-increment count. -/
def Node.incrementSourceReadCount (n : Node) : Nat × Node :=
  (n.source_read_count + 1,
   { n with source_read_count := n.source_read_count + 1 })

/-- The consumer-side handle (`SourceBase<T>` data members): the segment
address it bound, whether `bind` completed (`shmem_bound_`), and the slot
index returned by the Node at attach time (`this_index_`). -/
structure SourceT where
  address : String
  shmem_bound : Bool
  this_index : Nat
deriving DecidableEq, Repr

/-- One successful `timed_wait` on read barrier `i`: a token is consumed. -/
def consumeRB (n : Node) (i : Nat) : Node :=
  { n with read_barriers := n.read_barriers.set i (n.read_barriers.getD i 0 - 1) }

/-- `SourceBase<T>::wait` (Source.h lines 120-136): a timed-wait retry loop
on `readBarrier(this_index_)`.  Each fuel unit is one 10 ms `timed_wait`
iteration; the loop body only resets the timeout, so an iteration either
consumes a barrier token and returns, or leaves the node unchanged and
retries.  `none` means the loop had not returned within the given number
of iterations. -/
def SourceBase.wait : Nat → Node → Nat → Option Node
  | 0, _, _ => none
  | fuel+1, n, i =>
      if 0 < n.read_barriers.getD i 0 then some (consumeRB n i)
      else SourceBase.wait fuel n i

/-- `SourceBase<T>::connect` (Source.h lines 138-143): if the sink state is
not BOUND, the consumer waits on its read barrier; otherwise it returns at
once with the node untouched. -/
def SourceBase.connect (fuel : Nat) (n : Node) (i : Nat) : Option Node :=
  if n.sink_state ≠ SinkState.BOUND then SourceBase.wait fuel n i
  else some n

/-- `SourceBase<T>::post` (Source.h lines 145-154): atomically increment
`source_read_count`; when the incremented value equals `source_ref_count`,
post the write barrier. -/
def SourceBase.post (n : Node) : Node :=
  let r := n.incrementSourceReadCount
  if r.1 = r.2.source_ref_count then
    { r.2 with write_barrier := r.2.write_barrier + 1 }
  else r.2

/-- The Node name suffix used inside a segment (Source.h line 85). -/
def shmgrSuffix : String := "/shmgr"

/-- The payload-slot name suffix used inside a segment (Source.h line 86). -/
def shobjSuffix : String := "/shobj"

/-- A named shared-memory segment: the names of the objects constructed in
it so far (`find_or_construct` targets), the Node control block, the base
address of the mapping, the segment-relative handle stored in the payload
slot, and the size it was created with. -/
structure ShmSegment where
  objects : List String
  node : Node
  base : Nat
  dataHandle : Nat
  size : Nat
deriving DecidableEq, Repr

/-- The host's shared-memory registry: named segments, keyed by address. -/
abbrev Shmem : Type := List (String × ShmSegment)

/-- Look up the segment registered under an address. -/
def segLookup : Shmem → String → Option ShmSegment
  | [], _ => none
  | p :: t, a => if p.1 = a then some p.2 else segLookup t a

/-- Replace the segment registered under an address. -/
def shUpdate : Shmem → String → ShmSegment → Shmem
  | [], _, _ => []
  | p :: t, a, s => (if p.1 = a then (p.1, s) else p) :: shUpdate t a s

/-- `bip::shared_memory_object::remove`: unlink the name from the host. -/
def shRemove : Shmem → String → Shmem
  | [], _ => []
  | p :: t, a => if p.1 = a then shRemove t a else p :: shRemove t a

/-- Abstract `sizeof(oat::Node)`. -/
def nodeSizeC : Nat := 64

/-- Abstract `sizeof(T)` for the payload type. -/
def objSizeC : Nat := 16

/-- `bip::managed_shared_memory(open_or_create, address, size)`: open the
segment registered under the address, or create a fresh one of the
requested size.  Returns the registry and the segment now backing the
address. -/
def openOrCreate (sh : Shmem) (a : String) (sz : Nat) : Shmem × ShmSegment :=
  match segLookup sh a with
  | some seg => (sh, seg)
  | none =>
      let seg : ShmSegment :=
        { objects := [], node := Node.init, base := 0, dataHandle := 0, size := sz }
      ((a, seg) :: sh, seg)

/-- `find_or_construct<oat::Node>(name)()`: construct a default Node under
the name on first call, find the existing one afterwards. -/
def findOrConstructNode (seg : ShmSegment) (nm : String) : ShmSegment :=
  if nm ∈ seg.objects then seg
  else { seg with objects := nm :: seg.objects, node := Node.init }

/-- `find_or_construct<T>(name)()`: construct a default payload slot under
the name on first call, find the existing one afterwards. -/
def findOrConstructObj (seg : ShmSegment) (nm : String) : ShmSegment :=
  if nm ∈ seg.objects then seg
  else { seg with objects := nm :: seg.objects, dataHandle := 0 }

/-- The shared steps of `SourceBase<T>::bind` before the node is told about
the new source (Source.h lines 83-98): open or create the segment sized
`bytes + sizeof(Node) + sizeof(T)`, then find-or-construct the Node and the
payload slot under the derived names. -/
def bindPre (sh : Shmem) (a : String) (bytes : Nat) : Shmem × ShmSegment :=
  let p := openOrCreate sh a (bytes + nodeSizeC + objSizeC)
  let seg1 := findOrConstructNode p.2 (a ++ shmgrSuffix)
  let seg2 := findOrConstructObj seg1 (a ++ shobjSuffix)
  (p.1, seg2)

/-- The node `SourceBase<T>::bind` hands to `incrementSourceRefCount`. -/
def bindPreNode (sh : Shmem) (a : String) (bytes : Nat) : Node :=
  (bindPre sh a bytes).2.node

/-- `SourceBase<T>::bind` (Source.h lines 80-103): open or create the
segment, find-or-construct Node and payload slot, register this source with
the node and remember the returned slot index; `none` models the
`too-many-consumers` failure, on which `shmem_bound_` is never set. -/
def SourceBase.bind (sh : Shmem) (a : String) (bytes : Nat) :
    Option (Shmem × SourceT) :=
  match (bindPre sh a bytes).2.node.incrementSourceRefCount with
  | none => none
  | some (i, n') =>
      some (shUpdate (bindPre sh a bytes).1 a { (bindPre sh a bytes).2 with node := n' },
            { address := a, shmem_bound := true, this_index := i })

/-- The error outcomes of `SourceBase<T>::read`. -/
inductive ReadErr where
  | readWithoutBoundSink
  | segmentNotFound
deriving DecidableEq, Repr

/-- `SourceBase<T>::read` (Source.h lines 106-118): throw the
protocol-misuse error when the sink is not BOUND, otherwise reopen the
segment (`open_only`, failing when the name is gone) and translate the
payload's segment-relative handle to a local address. -/
def SourceBase.read (sh : Shmem) (src : SourceT) (n : Node) : Except ReadErr Nat :=
  if n.sink_state ≠ SinkState.BOUND then Except.error ReadErr.readWithoutBoundSink
  else
    match segLookup sh src.address with
    | none => Except.error ReadErr.segmentNotFound
    | some seg => Except.ok (seg.base + seg.dataHandle)

/-- `SourceBase<T>::~SourceBase` (Source.h lines 64-78): when the segment
was bound, decrement the source reference count; when the post-decrement
count is 0 and the sink is not BOUND, call `post()` and unlink the segment.
Returns the registry afterwards together with the final state of the node
mapping (still visible to peers), `none` when the source had never
bound. -/
def SourceBase.destruct (sh : Shmem) (src : SourceT) : Shmem × Option Node :=
  if src.shmem_bound then
    match segLookup sh src.address with
    | none => (sh, none)
    | some seg =>
        let d := seg.node.decrementSourceRefCount src.this_index
        if d.1 = 0 ∧ d.2.sink_state ≠ SinkState.BOUND then
          (shRemove sh src.address, some (SourceBase.post d.2))
        else
          (shUpdate sh src.address { seg with node := d.2 }, some d.2)
  else (sh, none)

/-- A node whose sink has reached END while no read-barrier token is
pending: the state a consumer sees after the producer has ended the stream
without posting this consumer's barrier again. -/
def nodeEndStuck : Node := { Node.init with sink_state := SinkState.END }

/-- The address used by the concrete scenarios below. -/
def frameAddr : String := "frame"

/-- The node of a segment with a single attached consumer (slot 0) and no
sink yet. -/
def nodeLastSource : Node :=
  { Node.init with source_ref_count := 1
                 , slots := (List.replicate maxConsumers false).set 0 true }

/-- A segment holding that node, fully constructed. -/
def segLastSource : ShmSegment :=
  { objects := [frameAddr ++ shobjSuffix, frameAddr ++ shmgrSuffix]
  , node := nodeLastSource, base := 0, dataHandle := 0, size := 80 }

/-- A registry holding only that segment. -/
def shLastSource : Shmem := [(frameAddr, segLastSource)]

/-- The last attached source, bound on slot 0. -/
def srcLastSource : SourceT :=
  { address := frameAddr, shmem_bound := true, this_index := 0 }

/-- The node state left behind by destructing the last source. -/
def nodeAfterLastDestruct : Node :=
  ((SourceBase.destruct shLastSource srcLastSource).2).getD Node.init

/-- `wait` on this node never returns, no matter how many timed-wait
iterations are allowed. -/
def waitNeverReturns (n : Node) (i : Nat) : Prop :=
  ∀ fuel, SourceBase.wait fuel n i = none

/-- `connect` on this node never returns, no matter how many timed-wait
iterations are allowed. -/
def connectNeverReturns (n : Node) (i : Nat) : Prop :=
  ∀ fuel, SourceBase.connect fuel n i = none

/-- A node like the one `post` is reached with in a normal fan-out cycle:
three attached consumers of which one has already posted. -/
def nodeMidCycle : Node :=
  { Node.init with source_ref_count := 3, source_read_count := 1 }

/-- A node whose sink is BOUND, used by concrete read scenarios. -/
def nodeBoundW : Node := { Node.init with sink_state := SinkState.BOUND }

/-- The empty registry: no sink or source has created anything yet. -/
def shEmptyW : Shmem := []

/-- Fallback value used to name the components of a successful bind. -/
def bindDefaultW : Shmem × SourceT :=
  ([], { address := frameAddr, shmem_bound := false, this_index := 0 })

/-- The registry produced by binding a first source on an empty host. -/
def shAfterBindW : Shmem :=
  ((SourceBase.bind shEmptyW frameAddr 0).getD bindDefaultW).1

/-- The source produced by binding a first source on an empty host. -/
def srcAfterBindW : SourceT :=
  ((SourceBase.bind shEmptyW frameAddr 0).getD bindDefaultW).2

/-- A source on the scenario address that never completed `bind`. -/
def srcUnboundW : SourceT :=
  { address := frameAddr, shmem_bound := false, this_index := 0 }

/-- Modelled from the spec: the `lib/shmemdf` node-state result of the
consumer-side `wait()` is not part of the provided sources;
`wait() → NodeState ∈ {ACTIVE, END}`. -/
inductive NodeState where
  | ACTIVE
  | END
deriving DecidableEq, Repr

/-- Whether a `wait()` result reports end-of-stream. -/
def isEnd : NodeState → Bool
  | NodeState.END => true
  | NodeState.ACTIVE => false

/-- One `source_eof_ |= (wait() == oat::NodeState::END)` accumulation step
(Recorder.cpp lines 195 and 218). -/
def orEof (e : Bool) (s : NodeState) : Bool := e || isEnd s

/-- The recorder state that `writeStreams` touches: the latched
end-of-stream flag `source_eof_` and the `record_on_` switch. -/
structure RecState where
  source_eof : Bool
  record_on : Bool
deriving DecidableEq, Repr

/-- The exception `writeStreams` can raise while recording. -/
inductive RecErr where
  | frameBufferOverrun
deriving DecidableEq, Repr

/-- `Recorder::writeStreams` (Recorder.cpp lines 188-234): fold the frame
sources' `wait()` results into `source_eof_`, raise the frame-buffer
overrun error when recording and a queue push fails, fold the position
sources' results in as well, and return the accumulated flag, which is
also stored back into the recorder state. -/
def writeStreams (st : RecState) (frameWaits posWaits : List NodeState)
    (pushOk : Bool) : Except RecErr (Bool × RecState) :=
  let eof1 := frameWaits.foldl orEof st.source_eof
  if st.record_on && !pushOk then Except.error RecErr.frameBufferOverrun
  else
    let eof2 := posWaits.foldl orEof eof1
    Except.ok (eof2, { st with source_eof := eof2 })

/-- A run of consecutive `writeStreams` calls: each call consumes one
triple of inputs; an exception aborts the run. -/
def runWrites : RecState → List (List NodeState × List NodeState × Bool) → List Bool
  | _, [] => []
  | st, c :: cs =>
      match writeStreams st c.1 c.2.1 c.2.2 with
      | Except.error _ => []
      | Except.ok r => r.1 :: runWrites r.2 cs

/-- A recorder that has not yet seen end-of-stream and is not recording. -/
def recStFresh : RecState := { source_eof := false, record_on := false }

/-- The recorder state after the first END observation. -/
def recStEof : RecState := { source_eof := true, record_on := false }

/-- The image moments of a detected contour (`cv::moments`): `m00` is the
contour area.  The bulk image processing is external to the substrate;
the moments themselves are the inputs of `siftBlobs`. -/
structure Moments where
  m00 : ℚ
  m10 : ℚ
  m01 : ℚ
deriving DecidableEq, Repr

/-- The slice of `oat::Position2D` that `HSVDetector` writes: the
coordinates and the validity flag. -/
structure Position2D where
  x : ℚ
  y : ℚ
  position_valid : Bool
deriving DecidableEq, Repr

/-- The centroid position a qualifying contour produces
(HSVDetector.cpp lines 104-106): `(m10/m00, m01/m00)`, marked valid. -/
def centroidPos (m : Moments) : Position2D :=
  { x := m.m10 / m.m00, y := m.m01 / m.m00, position_valid := true }

/-- One iteration of the contour loop in `HSVDetector::siftBlobs`
(HSVDetector.cpp lines 97-109): the accumulator carries `object_area` and
`object_position`; a contour strictly inside the area bounds and strictly
larger than the area found so far replaces both. -/
def siftStep (minA maxA : ℚ) (st : ℚ × Position2D) (m : Moments) : ℚ × Position2D :=
  if minA < m.m00 ∧ m.m00 < maxA ∧ st.1 < m.m00 then (m.m00, centroidPos m)
  else st

/-- `HSVDetector::siftBlobs` (HSVDetector.cpp lines 83-110): reset
`object_area` to 0 and `position_valid` to false, then fold the loop body
over the moments of the contours the hierarchy traversal visits. -/
def siftBlobs (minA maxA : ℚ) (ms : List Moments) (p0 : Position2D) :
    ℚ × Position2D :=
  ms.foldl (siftStep minA maxA) (0, { p0 with position_valid := false })

/-- `HSVDetector::detectPosition` (HSVDetector.cpp lines 50-62): after
thresholding and morphology (external), sift the blobs and return the
member `object_position` (`tune` does not change it). -/
def detectPosition (minA maxA : ℚ) (ms : List Moments) (p0 : Position2D) :
    Position2D :=
  (siftBlobs minA maxA ms p0).2

/-- A contour strictly inside the configured area bounds. -/
def areaInBounds (minA maxA : ℚ) (m : Moments) : Prop :=
  minA < m.m00 ∧ m.m00 < maxA

instance (minA maxA : ℚ) (m : Moments) : Decidable (areaInBounds minA maxA m) := by
  unfold areaInBounds
  infer_instance

/-- The single qualifying contour of the witness scenario: area 2,
centroid (3, 2). -/
def momW : Moments := { m00 := 2, m10 := 6, m01 := 4 }

/-- An arbitrary prior position for the witness scenario. -/
def posW : Position2D := { x := 0, y := 0, position_valid := false }

/-- The frameserver camera type names (frameserver main.cpp lines 72-75). -/
def wcamStr : String := "wcam"

/-- The GigE camera type name. -/
def gigeStr : String := "gige"

/-- The file-reader type name. -/
def fileStr : String := "file"

/-- The camera TYPEs `oat frameserve` dispatches on. -/
def validCameraTypes : List String := [wcamStr, gigeStr, fileStr]

/-- The position-filter type names (positionfilter main.cpp lines 122-125). -/
def kalmanStr : String := "kalman"

/-- The homography filter type name. -/
def homographyStr : String := "homography"

/-- The region filter type name. -/
def regionStr : String := "region"

/-- The filter TYPEs `oat posifilt` dispatches on. -/
def validFilterTypes : List String := [kalmanStr, homographyStr, regionStr]

/-- The command-line situation of one `oat frameserve` invocation, after
program-option processing: whether `po::store`/`po::notify` threw a
`std::exception`, which options were present, and the TYPE string. -/
structure FrameserverArgs where
  parseExn : Bool
  help : Bool
  version : Bool
  hasType : Bool
  hasSink : Bool
  hasConfigFile : Bool
  hasConfigKey : Bool
  typeStr : String
  hasVideoFile : Bool
deriving DecidableEq, Repr

/-- `main` of the frameserver (frameserver main.cpp lines 59-216), reduced
to its exit code: the catch of a parsing `std::exception` returns 1
(lines 160-162); the explicitly checked argument errors and an invalid
TYPE return -1; `--help`/`--version` and a clean run return 0. -/
def frameserverExit (a : FrameserverArgs) : Int :=
  if a.parseExn then 1
  else if a.help then 0
  else if a.version then 0
  else if !a.hasType then -1
  else if !a.hasSink then -1
  else if (a.hasConfigFile && !a.hasConfigKey) || (!a.hasConfigFile && a.hasConfigKey) then -1
  else if a.typeStr = fileStr ∧ !a.hasVideoFile then -1
  else if ¬ a.typeStr ∈ validCameraTypes then -1
  else 0

/-- The command-line situation of one `oat posifilt` invocation, after
program-option processing: whether any of the parse, configure or run
stages threw (all caught at the bottom of `main`), which options were
present, and the TYPE string. -/
structure PosifiltArgs where
  parseExn : Bool
  hasType : Bool
  typeStr : String
  help : Bool
  version : Bool
  hasSource : Bool
  hasSink : Bool
  configExn : Bool
  runtimeExn : Bool
deriving DecidableEq, Repr

/-- `main` of the position filter (positionfilter main.cpp lines 112-300),
reduced to its exit code: every caught exception and every explicitly
checked argument error returns -1; `--help`/`--version` and a clean run
return 0.  The TYPE dispatch happens before the help/version checks. -/
def posifiltExit (a : PosifiltArgs) : Int :=
  if a.parseExn then -1
  else if a.hasType ∧ ¬ a.typeStr ∈ validFilterTypes then -1
  else if a.help then 0
  else if a.version then 0
  else if !a.hasType || !a.hasSource || !a.hasSink then -1
  else if a.configExn then -1
  else if a.runtimeExn then -1
  else 0

/-- An `oat frameserve` invocation whose option parsing throws, e.g.
`oat frameserve wcam raw --bogus` (an unregistered option raises
`po::error`, a `std::exception`). -/
def fsParseErrArgs : FrameserverArgs :=
  { parseExn := true, help := false, version := false, hasType := true
  , hasSink := true, hasConfigFile := false, hasConfigKey := false
  , typeStr := wcamStr, hasVideoFile := false }

theorem waitLoop_none_of_no_token :
    ∀ (fuel : Nat) (n : Node) (i : Nat),
      ¬ 0 < n.read_barriers.getD i 0 → SourceBase.wait fuel n i = none := by
  intro fuel
  induction fuel with
  | zero => intro n i _; rfl
  | succ k ih =>
      intro n i h
      rw [SourceBase.wait, if_neg h]
      exact ih n i h

theorem waitLoop_succ_spec (fuel : Nat) (n : Node) (i : Nat) :
    SourceBase.wait (fuel + 1) n i =
      if 0 < n.read_barriers.getD i 0 then some (consumeRB n i) else none := by
  by_cases h : 0 < n.read_barriers.getD i 0
  · rw [SourceBase.wait, if_pos h, if_pos h]
  · rw [SourceBase.wait, if_neg h, if_neg h]
    exact waitLoop_none_of_no_token fuel n i h

/-- Claim C2, counterexample: the claim says `wait()` checks `sink_state`
between timed-wait iterations and exits with an END indication whenever
`sink_state = END`.  On the concrete node whose sink state is END but whose
read barrier holds no token, `wait()` never exits: the loop inspects only
the barrier, never the sink state. -/
theorem C2_wait_ignores_end_counterexample :
    nodeEndStuck.sink_state = SinkState.END ∧ waitNeverReturns nodeEndStuck 0 := by
  refine ⟨rfl, fun fuel => waitLoop_none_of_no_token fuel nodeEndStuck 0 ?_⟩
  decide

/-- Claim C2, amended: `wait()` blocks on the consumer's read barrier using
a timed-wait retry loop and returns exactly when the barrier holds a token
(consuming it); it does not inspect `sink_state` and provides no
end-of-stream indication. -/
theorem C2_wait_returns_iff_barrier_posted (fuel : Nat) (n : Node) (i : Nat) :
    SourceBase.wait (fuel + 1) n i =
      if 0 < n.read_barriers.getD i 0 then some (consumeRB n i) else none :=
  waitLoop_succ_spec fuel n i

/-- Claim C3, counterexample: the claim says `connect()` blocks only when
`sink_state = UNDEFINED` and returns without waiting in every other state,
including END.  On the concrete node whose sink state is END and whose read
barrier holds no token, `connect()` enters the wait loop and never returns:
the code waits whenever the state is not BOUND. -/
theorem C3_connect_waits_on_end_counterexample :
    nodeEndStuck.sink_state = SinkState.END ∧ connectNeverReturns nodeEndStuck 0 := by
  refine ⟨rfl, fun fuel => ?_⟩
  rw [SourceBase.connect, if_pos (by decide)]
  exact waitLoop_none_of_no_token fuel nodeEndStuck 0 (by decide)

/-- Claim C3, amended: `connect()` returns immediately exactly when
`sink_state = BOUND`; in every other sink state (UNDEFINED or END) it
blocks on the consumer's read barrier, returning only once the barrier
holds a token. -/
theorem C3_connect_waits_iff_not_bound (fuel : Nat) (n : Node) (i : Nat) :
    SourceBase.connect (fuel + 1) n i =
      if n.sink_state = SinkState.BOUND then some n
      else if 0 < n.read_barriers.getD i 0 then some (consumeRB n i) else none := by
  by_cases h : n.sink_state = SinkState.BOUND
  · rw [SourceBase.connect, if_neg (by simp [h]), if_pos h]
  · rw [SourceBase.connect, if_pos h, if_neg h]
    exact waitLoop_succ_spec fuel n i

/-- Claim C4: `post()` increments `source_read_count`, and posts the write
barrier if and only if the incremented value equals `source_ref_count`;
when the incremented value is smaller, the write barrier is left
unposted. -/
theorem C4_post_increments_and_posts_iff (n : Node) :
    (SourceBase.post n).source_read_count = n.source_read_count + 1 ∧
    ((SourceBase.post n).write_barrier = n.write_barrier + 1 ↔
      n.source_read_count + 1 = n.source_ref_count) ∧
    (n.source_read_count + 1 < n.source_ref_count →
      (SourceBase.post n).write_barrier = n.write_barrier) := by
  by_cases h : n.source_read_count + 1 = n.source_ref_count <;>
    simp [SourceBase.post, Node.incrementSourceReadCount, h]

/-- Claim C4, witness: a mid-cycle node with three consumers of which one
has already posted; `post()` increments the read count to 2 and leaves the
write barrier alone because 2 < 3. -/
theorem C4_post_witness :
    (SourceBase.post nodeMidCycle).source_read_count = nodeMidCycle.source_read_count + 1 ∧
    ((SourceBase.post nodeMidCycle).write_barrier = nodeMidCycle.write_barrier + 1 ↔
      nodeMidCycle.source_read_count + 1 = nodeMidCycle.source_ref_count) ∧
    (nodeMidCycle.source_read_count + 1 < nodeMidCycle.source_ref_count ∧
      (SourceBase.post nodeMidCycle).write_barrier = nodeMidCycle.write_barrier) :=
  ⟨(C4_post_increments_and_posts_iff nodeMidCycle).1,
   (C4_post_increments_and_posts_iff nodeMidCycle).2.1,
   by decide,
   (C4_post_increments_and_posts_iff nodeMidCycle).2.2 (by decide)⟩

/-- Claim C1: the spec (and the destructor's own comment, "Ensure that no
server is deadlocked") say the destruction of the last source posts the
write barrier.  Evaluating the destructor on the last attached source of a
sinkless segment: the reference count is decremented to 0 and the segment
is unlinked as claimed, but the write barrier is left at 0 — the `post()`
the destructor calls only posts when the incremented read count (here 1)
equals the already-decremented reference count (here 0), which can never
hold. -/
theorem C1_destructor_leaves_write_barrier_unposted :
    (SourceBase.destruct shLastSource srcLastSource).2 = some nodeAfterLastDestruct ∧
    nodeAfterLastDestruct.source_ref_count = 0 ∧
    nodeAfterLastDestruct.source_read_count = 1 ∧
    nodeAfterLastDestruct.sink_state = SinkState.UNDEFINED ∧
    nodeAfterLastDestruct.write_barrier = 0 ∧
    segLookup (SourceBase.destruct shLastSource srcLastSource).1 frameAddr = none := by
  decide

/-- Claim C5: a consumer read of the payload raises the
read-without-bound-sink error exactly when the sink is not BOUND, and when
the sink is BOUND (with the bound segment still registered) it returns the
translated address of the payload handle. -/
theorem C5_read_error_iff_sink_not_bound (sh : Shmem) (src : SourceT) (n : Node) :
    (SourceBase.read sh src n = Except.error ReadErr.readWithoutBoundSink ↔
      n.sink_state ≠ SinkState.BOUND) ∧
    (∀ seg, n.sink_state = SinkState.BOUND → segLookup sh src.address = some seg →
      SourceBase.read sh src n = Except.ok (seg.base + seg.dataHandle)) := by
  constructor
  · unfold SourceBase.read
    by_cases h : n.sink_state = SinkState.BOUND
    · rw [if_neg (by simp [h])]
      cases hl : segLookup sh src.address with
      | none => simp [h]
      | some seg => simp [h]
    · rw [if_pos h]
      simp [h]
  · intro seg hb hl
    unfold SourceBase.read
    rw [if_neg (by simp [hb]), hl]

/-- Claim C5, witness: with the sink BOUND and the segment registered, the
read succeeds and yields the translated address. -/
theorem C5_read_witness :
    nodeBoundW.sink_state = SinkState.BOUND ∧
    segLookup shLastSource srcLastSource.address = some segLastSource ∧
    SourceBase.read shLastSource srcLastSource nodeBoundW =
      Except.ok (segLastSource.base + segLastSource.dataHandle) :=
  ⟨rfl, by decide,
   (C5_read_error_iff_sink_not_bound shLastSource srcLastSource nodeBoundW).2
     segLastSource rfl (by decide)⟩

theorem mem_findOrConstructNode_self (seg : ShmSegment) (nm : String) :
    nm ∈ (findOrConstructNode seg nm).objects := by
  unfold findOrConstructNode
  split
  · assumption
  · exact List.mem_cons_self nm seg.objects

theorem mem_findOrConstructObj_self (seg : ShmSegment) (nm : String) :
    nm ∈ (findOrConstructObj seg nm).objects := by
  unfold findOrConstructObj
  split
  · assumption
  · exact List.mem_cons_self nm seg.objects

theorem mem_findOrConstructObj_mono (seg : ShmSegment) (nm x : String)
    (h : x ∈ seg.objects) : x ∈ (findOrConstructObj seg nm).objects := by
  unfold findOrConstructObj
  split
  · exact h
  · exact List.mem_cons_of_mem nm h

theorem node_findOrConstructObj (seg : ShmSegment) (nm : String) :
    (findOrConstructObj seg nm).node = seg.node := by
  unfold findOrConstructObj
  split <;> rfl

theorem segLookup_openOrCreate (sh : Shmem) (a : String) (sz : Nat) :
    segLookup (openOrCreate sh a sz).1 a = some (openOrCreate sh a sz).2 := by
  unfold openOrCreate
  cases hl : segLookup sh a with
  | some seg => simpa using hl
  | none => simp [segLookup]

theorem segLookup_shUpdate_self (sh : Shmem) (a : String) (s s0 : ShmSegment)
    (h : segLookup sh a = some s0) :
    segLookup (shUpdate sh a s) a = some s := by
  induction sh with
  | nil => simp [segLookup] at h
  | cons p t ih =>
      by_cases hp : p.1 = a
      · simp [segLookup, shUpdate, hp]
      · simp only [segLookup, shUpdate, if_neg hp] at h ⊢
        exact ih h

theorem incrementSourceRefCount_spec (n : Node) (i : Nat) (n' : Node)
    (h : n.incrementSourceRefCount = some (i, n')) :
    n'.source_ref_count = n.source_ref_count + 1 := by
  unfold Node.incrementSourceRefCount at h
  cases hf : n.slots.findIdx? (fun b => !b) <;> rw [hf] at h <;> simp at h
  rw [← h.2]

/-- Claim C6: when `bind` (the spec's `touch`) succeeds, the segment is
registered under the address (opened or created), the Node and payload slot
exist under the derived `/shmgr` and `/shobj` names — even starting from a
registry in which no sink ever constructed them — the node's
`source_ref_count` is exactly one larger than before the attach, and the
slot index the node returned is stored in the source (as `this_index_`,
which `wait()` uses to select its read barrier). -/
theorem C6_bind_attaches (sh : Shmem) (a : String) (bytes : Nat)
    (sh' : Shmem) (src' : SourceT)
    (h : SourceBase.bind sh a bytes = some (sh', src')) :
    src'.shmem_bound = true ∧ src'.address = a ∧
    ∃ seg', segLookup sh' a = some seg' ∧
      (a ++ shmgrSuffix) ∈ seg'.objects ∧
      (a ++ shobjSuffix) ∈ seg'.objects ∧
      seg'.node.source_ref_count = (bindPreNode sh a bytes).source_ref_count + 1 ∧
      (bindPreNode sh a bytes).incrementSourceRefCount = some (src'.this_index, seg'.node) := by
  unfold SourceBase.bind at h
  split at h
  · exact absurd h (by simp)
  · rename_i i n' hInc
    simp only [Option.some.injEq, Prod.mk.injEq] at h
    obtain ⟨hsh, hsrc⟩ := h
    subst hsh
    subst hsrc
    refine ⟨rfl, rfl, { (bindPre sh a bytes).2 with node := n' }, ?_, ?_, ?_, ?_, ?_⟩
    · refine segLookup_shUpdate_self _ a _ (openOrCreate sh a (bytes + nodeSizeC + objSizeC)).2 ?_
      exact segLookup_openOrCreate sh a (bytes + nodeSizeC + objSizeC)
    · exact mem_findOrConstructObj_mono _ _ _ (mem_findOrConstructNode_self _ _)
    · exact mem_findOrConstructObj_self _ _
    · exact incrementSourceRefCount_spec _ i n' hInc
    · exact hInc

/-- Claim C6, witness: binding on an empty registry (no sink has arrived)
succeeds and has all the attach effects. -/
theorem C6_bind_witness :
    SourceBase.bind shEmptyW frameAddr 0 = some (shAfterBindW, srcAfterBindW) ∧
    (srcAfterBindW.shmem_bound = true ∧ srcAfterBindW.address = frameAddr ∧
     ∃ seg', segLookup shAfterBindW frameAddr = some seg' ∧
       (frameAddr ++ shmgrSuffix) ∈ seg'.objects ∧
       (frameAddr ++ shobjSuffix) ∈ seg'.objects ∧
       seg'.node.source_ref_count = (bindPreNode shEmptyW frameAddr 0).source_ref_count + 1 ∧
       (bindPreNode shEmptyW frameAddr 0).incrementSourceRefCount =
         some (srcAfterBindW.this_index, seg'.node)) :=
  ⟨rfl, C6_bind_attaches shEmptyW frameAddr 0 shAfterBindW srcAfterBindW rfl⟩

/-- Claim C8: destroying a source whose binding never completed
(`shmem_bound_` false) changes nothing: the registry is returned untouched
and no node is reached, so `source_ref_count` and `source_read_count` are
unchanged and the named segment is not removed. -/
theorem C8_destruct_unbound_is_noop (sh : Shmem) (src : SourceT)
    (h : src.shmem_bound = false) :
    SourceBase.destruct sh src = (sh, none) := by
  simp [SourceBase.destruct, h]

/-- Claim C8, witness: destructing an unbound source over the one-segment
registry leaves the registry (and hence the node in it) untouched. -/
theorem C8_destruct_witness :
    srcUnboundW.shmem_bound = false ∧
    SourceBase.destruct shLastSource srcUnboundW = (shLastSource, none) :=
  ⟨rfl, C8_destruct_unbound_is_noop shLastSource srcUnboundW rfl⟩

theorem foldl_orEof_true (l : List NodeState) : l.foldl orEof true = true := by
  induction l with
  | nil => rfl
  | cons s t ih => simpa [orEof] using ih

theorem foldl_orEof_of_mem :
    ∀ (l : List NodeState), NodeState.END ∈ l → ∀ b, l.foldl orEof b = true := by
  intro l
  induction l with
  | nil => intro hm; cases hm
  | cons s t ih =>
      intro hm b
      rcases List.mem_cons.mp hm with hs | ht
      · subst hs
        simp only [List.foldl_cons]
        have hh : orEof b NodeState.END = true := by simp [orEof, isEnd]
        rw [hh]
        exact foldl_orEof_true t
      · simp only [List.foldl_cons]
        exact ih ht (orEof b s)

theorem writeStreams_ok_inv (st : RecState) (fr ps : List NodeState) (ok : Bool)
    (b : Bool) (st' : RecState)
    (h : writeStreams st fr ps ok = Except.ok (b, st')) :
    st'.source_eof = b ∧
    (st.source_eof = true → b = true) ∧
    (NodeState.END ∈ fr → b = true) ∧
    (NodeState.END ∈ ps → b = true) := by
  unfold writeStreams at h
  by_cases hrec : st.record_on && !ok
  · rw [if_pos hrec] at h
    cases h
  · rw [if_neg hrec] at h
    simp only [Except.ok.injEq, Prod.mk.injEq] at h
    obtain ⟨hb, hst⟩ := h
    subst hb
    subst hst
    refine ⟨rfl, ?_, ?_, ?_⟩
    · intro he
      rw [he, foldl_orEof_true, foldl_orEof_true]
    · intro hm
      rw [foldl_orEof_of_mem fr hm st.source_eof, foldl_orEof_true]
    · intro hm
      exact foldl_orEof_of_mem ps hm _

theorem runWrites_all_true :
    ∀ (calls : List (List NodeState × List NodeState × Bool)) (st : RecState),
      st.source_eof = true → ∀ r ∈ runWrites st calls, r = true := by
  intro calls
  induction calls with
  | nil => intro st _ r hr; cases hr
  | cons c cs ih =>
      intro st he r hr
      rw [runWrites] at hr
      cases hw : writeStreams st c.1 c.2.1 c.2.2 with
      | error e => rw [hw] at hr; cases hr
      | ok p =>
          rw [hw] at hr
          obtain ⟨hst, hmono, -, -⟩ := writeStreams_ok_inv st c.1 c.2.1 c.2.2 p.1 p.2 (by rw [hw])
          rcases List.mem_cons.mp hr with hh | ht
          · rw [hh]
            exact hmono he
          · exact ih p.2 (by rw [hst]; exact hmono he) r ht

/-- Claim C10: the recorder's end-of-stream flag is latched.  When a
`writeStreams` call sees some frame or position source report END (or the
flag was already set) and returns, it returns `true`, it stores `true` back
into `source_eof_`, and every later `writeStreams` call that returns does
so with `true` as well, whatever its sources report. -/
theorem C10_writeStreams_eof_latched (st : RecState) (fr ps : List NodeState)
    (ok : Bool) (b : Bool) (st' : RecState)
    (h : writeStreams st fr ps ok = Except.ok (b, st'))
    (hEnd : st.source_eof = true ∨ NodeState.END ∈ fr ∨ NodeState.END ∈ ps) :
    b = true ∧ st'.source_eof = true ∧
    ∀ calls r, r ∈ runWrites st' calls → r = true := by
  obtain ⟨hst, h1, h2, h3⟩ := writeStreams_ok_inv st fr ps ok b st' h
  have hb : b = true := by
    rcases hEnd with he | hm | hm
    · exact h1 he
    · exact h2 hm
    · exact h3 hm
  refine ⟨hb, by rw [hst, hb], fun calls r hr => ?_⟩
  exact runWrites_all_true calls st' (by rw [hst, hb]) r hr

/-- Claim C10, witness: a fresh recorder whose single frame source reports
END: the call returns `true`, latches the flag, and every later returning
call yields `true`. -/
theorem C10_writeStreams_witness :
    writeStreams recStFresh [NodeState.END] [] true = Except.ok (true, recStEof) ∧
    (true = true ∧ recStEof.source_eof = true ∧
      ∀ calls r, r ∈ runWrites recStEof calls → r = true) :=
  ⟨rfl,
   C10_writeStreams_eof_latched recStFresh [NodeState.END] [] true true recStEof rfl
     (Or.inr (Or.inl (List.mem_singleton.mpr rfl)))⟩

theorem siftFold_spec (minA maxA : ℚ) :
    ∀ (ms : List Moments) (a : ℚ) (p : Position2D),
      (ms.foldl (siftStep minA maxA) (a, p) = (a, p) ∧
        ∀ m' ∈ ms, areaInBounds minA maxA m' → m'.m00 ≤ a) ∨
      (∃ m ∈ ms, areaInBounds minA maxA m ∧ a < m.m00 ∧
        (ms.foldl (siftStep minA maxA) (a, p)).1 = m.m00 ∧
        (ms.foldl (siftStep minA maxA) (a, p)).2 = centroidPos m ∧
        ∀ m' ∈ ms, areaInBounds minA maxA m' →
          m'.m00 ≤ (ms.foldl (siftStep minA maxA) (a, p)).1) := by
  intro ms
  induction ms with
  | nil =>
      intro a p
      exact Or.inl ⟨rfl, fun m' hm' => absurd hm' (List.not_mem_nil m')⟩
  | cons m t ih =>
      intro a p
      by_cases hq : minA < m.m00 ∧ m.m00 < maxA ∧ a < m.m00
      · have hstep : siftStep minA maxA (a, p) m = (m.m00, centroidPos m) := by
          unfold siftStep
          rw [if_pos hq]
        rcases ih m.m00 (centroidPos m) with ⟨heq, hbound⟩ | ⟨m2, hm2, hb2, hlt2, h1, h2, hall⟩
        · refine Or.inr ⟨m, List.mem_cons_self m t, ⟨hq.1, hq.2.1⟩, hq.2.2, ?_, ?_, ?_⟩
          · rw [List.foldl_cons, hstep, heq]
          · rw [List.foldl_cons, hstep, heq]
          · intro m' hm' hb'
            rw [List.foldl_cons, hstep, heq]
            rcases List.mem_cons.mp hm' with hh | ht
            · rw [hh]
            · exact hbound m' ht hb'
        · refine Or.inr ⟨m2, List.mem_cons_of_mem m hm2, hb2, lt_trans hq.2.2 hlt2, ?_, ?_, ?_⟩
          · rw [List.foldl_cons, hstep]
            exact h1
          · rw [List.foldl_cons, hstep]
            exact h2
          · intro m' hm' hb'
            rw [List.foldl_cons, hstep]
            rcases List.mem_cons.mp hm' with hh | ht
            · rw [hh, h1]
              exact le_of_lt hlt2
            · exact hall m' ht hb'
      · have hstep : siftStep minA maxA (a, p) m = (a, p) := by
          unfold siftStep
          rw [if_neg hq]
        have hmle : areaInBounds minA maxA m → m.m00 ≤ a := by
          intro hb
          by_contra hgt
          exact hq ⟨hb.1, hb.2, lt_of_not_ge hgt⟩
        rcases ih a p with ⟨heq, hbound⟩ | ⟨m2, hm2, hb2, hlt2, h1, h2, hall⟩
        · refine Or.inl ⟨?_, ?_⟩
          · rw [List.foldl_cons, hstep, heq]
          · intro m' hm' hb'
            rcases List.mem_cons.mp hm' with hh | ht
            · rw [hh]
              exact hmle (hh ▸ hb')
            · exact hbound m' ht hb'
        · refine Or.inr ⟨m2, List.mem_cons_of_mem m hm2, hb2, hlt2, ?_, ?_, ?_⟩
          · rw [List.foldl_cons, hstep]
            exact h1
          · rw [List.foldl_cons, hstep]
            exact h2
          · intro m' hm' hb'
            rw [List.foldl_cons, hstep]
            rcases List.mem_cons.mp hm' with hh | ht
            · rw [hh, h1]
              have := hmle (hh ▸ hb')
              exact le_trans this (le_of_lt hlt2)
            · exact hall m' ht hb'

theorem siftStep_valid_mono (minA maxA : ℚ) :
    ∀ (ms : List Moments) (a : ℚ) (p : Position2D),
      p.position_valid = true →
      (ms.foldl (siftStep minA maxA) (a, p)).2.position_valid = true := by
  intro ms
  induction ms with
  | nil => intro a p hv; exact hv
  | cons m t ih =>
      intro a p hv
      rw [List.foldl_cons]
      unfold siftStep
      by_cases hq : minA < m.m00 ∧ m.m00 < maxA ∧ a < m.m00
      · rw [if_pos hq]
        exact ih m.m00 (centroidPos m) rfl
      · rw [if_neg hq]
        exact ih a p hv

/-- Claim C9: with the configured `min_object_area` nonnegative (the
constructor default is 0 and `configure` rejects negatives), the position
returned by `detectPosition` is valid exactly when some visited contour has
area strictly between `min_object_area` and `max_object_area`, and when it
is valid its coordinates are the moment centroid `(m10/m00, m01/m00)` of a
bounds-satisfying contour of maximal area among them. -/
theorem C9_detectPosition_spec (minA maxA : ℚ) (ms : List Moments)
    (p0 : Position2D) (hmin : 0 ≤ minA) :
    ((detectPosition minA maxA ms p0).position_valid = true ↔
      ∃ m ∈ ms, minA < m.m00 ∧ m.m00 < maxA) ∧
    ((detectPosition minA maxA ms p0).position_valid = true →
      ∃ m ∈ ms, minA < m.m00 ∧ m.m00 < maxA ∧
        (detectPosition minA maxA ms p0).x = m.m10 / m.m00 ∧
        (detectPosition minA maxA ms p0).y = m.m01 / m.m00 ∧
        ∀ m' ∈ ms, minA < m'.m00 → m'.m00 < maxA → m'.m00 ≤ m.m00) := by
  rcases siftFold_spec minA maxA ms 0 { p0 with position_valid := false }
    with ⟨heq, hbound⟩ | ⟨m2, hm2, hb2, hlt2, h1, h2, hall⟩
  · have hdet : detectPosition minA maxA ms p0 = { p0 with position_valid := false } := by
      unfold detectPosition siftBlobs
      rw [heq]
    constructor
    · rw [hdet]
      simp only [Bool.false_eq_true, false_iff]
      rintro ⟨m, hm, hlo, hhi⟩
      have hle : m.m00 ≤ 0 := hbound m hm ⟨hlo, hhi⟩
      have : (0 : ℚ) < m.m00 := lt_of_le_of_lt hmin hlo
      exact absurd hle (not_le.mpr this)
    · intro hv
      rw [hdet] at hv
      cases hv
  · have hdet : detectPosition minA maxA ms p0 = centroidPos m2 := by
      unfold detectPosition siftBlobs
      exact h2
    constructor
    · rw [hdet]
      simp only [centroidPos, true_iff]
      exact ⟨m2, hm2, hb2.1, hb2.2⟩
    · intro _
      refine ⟨m2, hm2, hb2.1, hb2.2, ?_, ?_, ?_⟩
      · rw [hdet]
        rfl
      · rw [hdet]
        rfl
      · intro m' hm' hlo hhi
        have := hall m' hm' ⟨hlo, hhi⟩
        rw [h1] at this
        exact this

/-- Claim C9, witness: with bounds (0, 100) and the single contour of area
2, the detection is valid and reports the centroid. -/
theorem C9_detectPosition_witness :
    (0 : ℚ) ≤ 0 ∧
    (((detectPosition 0 100 [momW] posW).position_valid = true ↔
        ∃ m ∈ [momW], (0 : ℚ) < m.m00 ∧ m.m00 < 100) ∧
     ((detectPosition 0 100 [momW] posW).position_valid = true →
        ∃ m ∈ [momW], (0 : ℚ) < m.m00 ∧ m.m00 < 100 ∧
          (detectPosition 0 100 [momW] posW).x = m.m10 / m.m00 ∧
          (detectPosition 0 100 [momW] posW).y = m.m01 / m.m00 ∧
          ∀ m' ∈ [momW], (0 : ℚ) < m'.m00 → m'.m00 < 100 → m'.m00 ≤ m.m00)) :=
  ⟨le_refl 0, C9_detectPosition_spec 0 100 [momW] posW (le_refl 0)⟩

/-- Claim C7, counterexample: the claim says every argument or runtime
error exits with -1 for every enclosing component, but the frameserver
returns 1 — neither -1 nor 0 — when command-line parsing throws. -/
theorem C7_frameserver_returns_one_counterexample :
    frameserverExit fsParseErrArgs = 1 ∧
    frameserverExit fsParseErrArgs ≠ -1 ∧
    frameserverExit fsParseErrArgs ≠ 0 := by
  decide

set_option maxHeartbeats 2000000 in
/-- Claim C7, amended: the position filter exits 0 exactly on clean
shutdown (help/version, or all of TYPE, SOURCE and SINK present with a
valid TYPE and no configure or runtime exception) and -1 exactly on its
argument or runtime errors (a parse exception, an invalid TYPE, a missing
TYPE/SOURCE/SINK, or a configure or runtime exception); the frameserver
exits -1 exactly on its explicitly checked argument errors (missing TYPE
or SINK, a config file without key or vice versa, TYPE file without a
video file, or an invalid TYPE), 0 exactly on help/version or a clean run,
and 1 — not -1 — exactly when command-line parsing throws. -/
theorem C7_exit_codes (pa : PosifiltArgs) (fa : FrameserverArgs) :
    (posifiltExit pa = 0 ↔
      pa.parseExn = false ∧
      ¬(pa.hasType = true ∧ ¬ pa.typeStr ∈ validFilterTypes) ∧
      (pa.help = true ∨ pa.version = true ∨
        (pa.hasType = true ∧ pa.hasSource = true ∧ pa.hasSink = true ∧
         pa.configExn = false ∧ pa.runtimeExn = false))) ∧
    (posifiltExit pa = -1 ↔
      pa.parseExn = true ∨
      (pa.hasType = true ∧ ¬ pa.typeStr ∈ validFilterTypes) ∨
      (pa.help = false ∧ pa.version = false ∧
        (pa.hasType = false ∨ pa.hasSource = false ∨ pa.hasSink = false ∨
         pa.configExn = true ∨ pa.runtimeExn = true))) ∧
    (frameserverExit fa = 1 ↔ fa.parseExn = true) ∧
    (frameserverExit fa = 0 ↔
      fa.parseExn = false ∧
      (fa.help = true ∨ fa.version = true ∨
        (fa.hasType = true ∧ fa.hasSink = true ∧
         ¬((fa.hasConfigFile = true ∧ fa.hasConfigKey = false) ∨
           (fa.hasConfigFile = false ∧ fa.hasConfigKey = true)) ∧
         ¬(fa.typeStr = fileStr ∧ fa.hasVideoFile = false) ∧
         fa.typeStr ∈ validCameraTypes))) ∧
    (frameserverExit fa = -1 ↔
      fa.parseExn = false ∧ fa.help = false ∧ fa.version = false ∧
      (fa.hasType = false ∨ fa.hasSink = false ∨
       (fa.hasConfigFile = true ∧ fa.hasConfigKey = false) ∨
       (fa.hasConfigFile = false ∧ fa.hasConfigKey = true) ∨
       (fa.typeStr = fileStr ∧ fa.hasVideoFile = false) ∨
       ¬ fa.typeStr ∈ validCameraTypes)) := by
  refine ⟨?_, ?_, ?_, ?_, ?_⟩
  · unfold posifiltExit
    split_ifs <;> simp_all <;> intros <;> (try simp_all) <;> (try tauto)
  · unfold posifiltExit
    split_ifs <;> simp_all <;> intros <;> (try simp_all) <;> (try tauto)
  · unfold frameserverExit
    split_ifs <;> simp_all <;> intros <;> (try simp_all) <;> (try tauto)
  · unfold frameserverExit
    split_ifs <;> simp_all <;> intros <;> (try simp_all) <;> (try tauto)
  · unfold frameserverExit
    split_ifs <;> simp_all <;> intros <;> (try simp_all) <;> (try tauto)
